import Mathlib

/-!
Shallow embedding of the serverless pooling backend of this repository
(`proxy/src/serverless/backend.rs`), together with theorems settling the
behavioural claims about it.  Rust functions become Lean functions; the
behaviour of external collaborators (the network, the control plane, the
compute_ctl API, the SCRAM worker pool) is supplied through explicit
oracle parameters; concurrency is modelled as an interleaving step
relation on an explicit shared state.
-/

namespace NeonProxy

/-- Error kinds surfaced to the request boundary (`crate::error::ErrorKind`
as used by `backend.rs`; spec section 7 taxonomy). -/
inductive ErrorKind where
  | Compute
  | Postgres
  | Service
  | User
  | Auth
  | RateLimited
deriving DecidableEq, Repr

/-- Model of `postgres_client::Error` as `backend.rs` observes it:
`hasDbError` is the result of `e.as_db_error().is_some()`, and
`couldRetryFlag` carries the delegated result of
`CouldRetry for postgres_client::Error` (implemented outside the sources
in scope, so kept abstract). -/
structure PgError where
  hasDbError : Bool
  couldRetryFlag : Bool
deriving DecidableEq, Repr

/-- Modelled from the spec: `ShouldRetryWakeCompute for postgres_client::Error`
lives in `crate::proxy::retry`, which is not among the provided sources.
Spec section 4.6: a Postgres connection error with a DB error payload gets
no wake retry; one without a DB payload allows a wake retry. -/
def PgError.should_retry_wake_compute (e : PgError) : Bool :=
  !e.hasDbError

/-- Model of `std::io::ErrorKind`, restricted to the kinds `connect_http2`
constructs or the claims mention. -/
inductive IoErrorKind where
  | TimedOut
  | InvalidInput
  | ConnectionRefused
  | Other
deriving DecidableEq, Repr

/-- Model of `std::io::Error`: a kind plus its display message. -/
structure IoError where
  kind : IoErrorKind
  msg : String
deriving DecidableEq, Repr

/-- `LocalProxyConnError` (backend.rs lines 395-401): an IO error with the
connection to local-proxy, or a failed h2 handshake (the `hyper::Error`
payload is abstracted by a tag). -/
inductive LocalProxyConnError where
  | Io (e : IoError)
  | H2 (tag : Nat)
deriving DecidableEq, Repr

/-- `impl ReportableError for LocalProxyConnError` (lines 471-478): both
variants report `ErrorKind::Compute`. -/
def LocalProxyConnError.get_error_kind : LocalProxyConnError → ErrorKind
  | LocalProxyConnError.Io _ => ErrorKind.Compute
  | LocalProxyConnError.H2 _ => ErrorKind.Compute

/-- `impl CouldRetry for LocalProxyConnError` (lines 486-493): both
variants answer `false`. -/
def LocalProxyConnError.could_retry : LocalProxyConnError → Bool
  | LocalProxyConnError.Io _ => false
  | LocalProxyConnError.H2 _ => false

/-- `impl ShouldRetryWakeCompute for LocalProxyConnError` (lines 494-501):
both variants answer `false`. -/
def LocalProxyConnError.should_retry_wake_compute : LocalProxyConnError → Bool
  | LocalProxyConnError.Io _ => false
  | LocalProxyConnError.H2 _ => false

/-- `HttpConnError` (backend.rs lines 372-393).  Payloads whose
classification `backend.rs` delegates wholesale to types defined elsewhere
(`GetAuthInfoError`, `AuthError`, `WakeComputeError`, `ApiLockError`) are
abstracted by the `ErrorKind` their own `get_error_kind` reports. -/
inductive HttpConnError where
  | ConnectionClosedAbruptly
  | PostgresConnectionError (p : PgError)
  | LocalProxyConnectionError (e : LocalProxyConnError)
  | JwtPayloadError
  | ComputeCtl
  | GetAuthInfo (k : ErrorKind)
  | AuthError (k : ErrorKind)
  | WakeCompute (k : ErrorKind)
  | TooManyConnectionAttempts (k : ErrorKind)
deriving DecidableEq, Repr

/-- `impl ReportableError for HttpConnError` (lines 403-425): a postgres
connection error is `Postgres` kind when it carries a DB error payload
(postgres rejected the connection) and `Compute` kind otherwise (postgres
was not even reached); delegated payloads report their own kind. -/
def HttpConnError.get_error_kind : HttpConnError → ErrorKind
  | HttpConnError.ConnectionClosedAbruptly => ErrorKind.Compute
  | HttpConnError.PostgresConnectionError p =>
      if p.hasDbError then ErrorKind.Postgres else ErrorKind.Compute
  | HttpConnError.LocalProxyConnectionError _ => ErrorKind.Compute
  | HttpConnError.ComputeCtl => ErrorKind.Service
  | HttpConnError.JwtPayloadError => ErrorKind.User
  | HttpConnError.GetAuthInfo k => k
  | HttpConnError.AuthError k => k
  | HttpConnError.WakeCompute k => k
  | HttpConnError.TooManyConnectionAttempts k => k

/-- `impl CouldRetry for HttpConnError` (lines 445-459). -/
def HttpConnError.could_retry : HttpConnError → Bool
  | HttpConnError.PostgresConnectionError p => p.couldRetryFlag
  | HttpConnError.LocalProxyConnectionError e => e.could_retry
  | HttpConnError.ComputeCtl => false
  | HttpConnError.ConnectionClosedAbruptly => false
  | HttpConnError.JwtPayloadError => false
  | HttpConnError.GetAuthInfo _ => false
  | HttpConnError.AuthError _ => false
  | HttpConnError.WakeCompute _ => false
  | HttpConnError.TooManyConnectionAttempts _ => false

/-- `impl ShouldRetryWakeCompute for HttpConnError` (lines 460-469): a
postgres connection error delegates to the postgres error, permit
exhaustion answers `false` (the cache was never checked), everything else
answers `true`. -/
def HttpConnError.should_retry_wake_compute : HttpConnError → Bool
  | HttpConnError.PostgresConnectionError p => p.should_retry_wake_compute
  | HttpConnError.TooManyConnectionAttempts _ => false
  | HttpConnError.ConnectionClosedAbruptly => true
  | HttpConnError.LocalProxyConnectionError _ => true
  | HttpConnError.JwtPayloadError => true
  | HttpConnError.ComputeCtl => true
  | HttpConnError.GetAuthInfo _ => true
  | HttpConnError.AuthError _ => true
  | HttpConnError.WakeCompute _ => true

/-- Pooled client handle state relevant to `connect_to_local_postgres`
session setup: the `discard` flag of the pool handle. -/
structure LocalClientHandle where
  discarded : Bool
deriving DecidableEq, Repr

/-- Tail of `connect_to_local_postgres` (backend.rs lines 343-356): execute
`select auth.init();` on the fresh session; on failure mark the pooled
client discarded and surface the error (converted into
`HttpConnError::PostgresConnectionError` by the `#[from]` conversion);
on success return the handle unchanged. -/
def authInitSession (res : Except PgError Unit) (h : LocalClientHandle) :
    LocalClientHandle × Except HttpConnError Unit :=
  match res with
  | Except.error e =>
      (⟨true⟩, Except.error (HttpConnError.PostgresConnectionError e))
  | Except.ok _ => (h, Except.ok ())

/-- Result of consulting a connection pool before dialing. -/
inductive PoolDecision (C E : Type) where
  | reuse (c : C)
  | dial
  | fail (e : E)

/-- Pool-lookup dispatch of `connect_to_local_proxy` (backend.rs lines
213-216): `if let Ok(Some(client)) = self.http_conn_pool.get(..)` reuses
the pooled client; every other lookup result, including `Err(_)`, falls
through to dialing a new connection, silently discarding a lookup error. -/
def connect_to_local_proxy_lookup (C E : Type) :
    Except E (Option C) → PoolDecision C E
  | Except.ok (some c) => PoolDecision.reuse c
  | Except.ok none => PoolDecision.dial
  | Except.error _ => PoolDecision.dial

/-- Pool-lookup dispatch of `connect_to_compute` (backend.rs lines
172-182): with `force_new` the pool is skipped; otherwise
`self.pool.get(ctx, &conn_info)?` propagates a lookup error to the caller,
reuses a hit, and dials on a miss. -/
def connect_to_compute_lookup (C E : Type) (force_new : Bool)
    (r : Except E (Option C)) : PoolDecision C E :=
  if force_new then PoolDecision.dial
  else
    match r with
    | Except.error e => PoolDecision.fail e
    | Except.ok (some c) => PoolDecision.reuse c
    | Except.ok none => PoolDecision.dial

/-- Socket address, as produced by `std::net::SocketAddr::new(addr, port)`;
the IP address is abstracted by a number. -/
structure SocketAddr where
  ip : Nat
  port : Nat
deriving DecidableEq, Repr

/-- Outcome of one bounded TCP connect attempt in `connect_http2`
(backend.rs lines 650-664): `tokio::time::timeout(timeout,
TcpStream::connect(addr))` yields a stream (after which `set_nodelay` may
itself fail), an IO error, or elapses.  The network's behaviour is
supplied as an oracle from addresses to outcomes. -/
inductive TcpAttempt where
  | connected
  | nodelayErr (e : IoError)
  | connErr (e : IoError)
  | timedOut (elapsedMsg : String)
deriving DecidableEq, Repr

/-- Address-candidate loop of `connect_http2` (backend.rs lines 637-665):
iterate the candidate addresses tracking `last_err`; a successful connect
breaks the loop (returning the chosen address here); a `set_nodelay`
failure returns immediately; a connect error or a timeout (recorded as an
IO error of kind `TimedOut` wrapping the elapsed message) is stored in
`last_err`; on exhaustion return `last_err`, or the synthetic
`InvalidInput("could not resolve any addresses")` when no attempt was
recorded. -/
def connectLoop (attempt : SocketAddr → TcpAttempt) :
    List SocketAddr → Option LocalProxyConnError →
    Except LocalProxyConnError SocketAddr
  | [], lastErr =>
      Except.error (lastErr.getD (LocalProxyConnError.Io
        ⟨IoErrorKind.InvalidInput, "could not resolve any addresses"⟩))
  | a :: rest, _lastErr =>
      match attempt a with
      | TcpAttempt.connected => Except.ok a
      | TcpAttempt.nodelayErr e => Except.error (LocalProxyConnError.Io e)
      | TcpAttempt.connErr e =>
          connectLoop attempt rest (some (LocalProxyConnError.Io e))
      | TcpAttempt.timedOut m =>
          connectLoop attempt rest (some (LocalProxyConnError.Io
            ⟨IoErrorKind.TimedOut, m⟩))

/-- Candidate-address resolution of `connect_http2` (backend.rs lines
630-636): a supplied `host_addr` short-circuits to the single
`SocketAddr::new(addr, port)`; only otherwise is `(host, port)`
DNS-resolved via `lookup_host` (whose errors map to
`LocalProxyConnError::Io`).  The second component records whether DNS was
consulted. -/
def resolveAddrs (host_addr : Option Nat) (port : Nat)
    (dns : Except IoError (List SocketAddr)) :
    Except LocalProxyConnError (List SocketAddr) × Bool :=
  match host_addr with
  | some addr => (Except.ok [⟨addr, port⟩], false)
  | none =>
      match dns with
      | Except.ok l => (Except.ok l, true)
      | Except.error e => (Except.error (LocalProxyConnError.Io e), true)

/-- `connect_http2` (backend.rs lines 623-665) up to the point a TCP
stream is selected: resolve the candidate addresses, then run the connect
loop with `last_err` initially empty. -/
def connect_http2 (host_addr : Option Nat) (port : Nat)
    (dns : Except IoError (List SocketAddr))
    (attempt : SocketAddr → TcpAttempt) :
    Except LocalProxyConnError SocketAddr :=
  match (resolveAddrs host_addr port dns).1 with
  | Except.error e => Except.error e
  | Except.ok addrs => connectLoop attempt addrs none

/-- The error `connect_http2` records in `last_err` for a failed connect
attempt (`none` when the attempt instead exits the loop). -/
def attemptRecorded : TcpAttempt → Option LocalProxyConnError
  | TcpAttempt.connErr e => some (LocalProxyConnError.Io e)
  | TcpAttempt.timedOut m =>
      some (LocalProxyConnError.Io ⟨IoErrorKind.TimedOut, m⟩)
  | TcpAttempt.connected => none
  | TcpAttempt.nodelayErr _ => none

/-- C2: for every `HttpConnError::PostgresConnectionError`, the reported
error kind is `Postgres` when the postgres error carries a DB error
payload and `Compute` when it does not; and with a DB error payload
present, `should_retry_wake_compute` is `false`, so the wake cache entry
is not invalidated and no wake retry occurs. -/
theorem postgres_conn_error_classification (p : PgError) :
    (p.hasDbError = true →
      (HttpConnError.PostgresConnectionError p).get_error_kind =
        ErrorKind.Postgres ∧
      (HttpConnError.PostgresConnectionError p).should_retry_wake_compute =
        false) ∧
    (p.hasDbError = false →
      (HttpConnError.PostgresConnectionError p).get_error_kind =
        ErrorKind.Compute) := by
  obtain ⟨db, r⟩ := p
  cases db <;>
    simp [HttpConnError.get_error_kind, HttpConnError.should_retry_wake_compute,
      PgError.should_retry_wake_compute]

/-- Witness for C2 at a concrete postgres error carrying a DB payload. -/
theorem postgres_conn_error_classification_witness :
    (HttpConnError.PostgresConnectionError ⟨true, false⟩).get_error_kind =
      ErrorKind.Postgres ∧
    (HttpConnError.PostgresConnectionError ⟨true, false⟩).should_retry_wake_compute =
      false :=
  (postgres_conn_error_classification ⟨true, false⟩).1 rfl

/-- C4: every `HttpConnError::TooManyConnectionAttempts` (permit
acquisition failure) has `could_retry = false` and
`should_retry_wake_compute = false`: it is never retried and never
triggers wake-cache invalidation. -/
theorem too_many_connection_attempts_never_retried (k : ErrorKind) :
    (HttpConnError.TooManyConnectionAttempts k).could_retry = false ∧
    (HttpConnError.TooManyConnectionAttempts k).should_retry_wake_compute =
      false :=
  ⟨rfl, rfl⟩

/-- C9: every `LocalProxyConnError` value (both `Io` and `H2`) has
`could_retry = false` and `should_retry_wake_compute = false` while its
error kind is `Compute`: a local-proxy transport failure surfaces after
the first attempt with no backoff retry and no wake-cache invalidation. -/
theorem local_proxy_conn_error_never_retried (e : LocalProxyConnError) :
    e.could_retry = false ∧ e.should_retry_wake_compute = false ∧
    e.get_error_kind = ErrorKind.Compute := by
  cases e <;> exact ⟨rfl, rfl, rfl⟩

/-- C8: if `select auth.init();` fails after the loopback connection is
established, the pooled client handle is marked discarded and the error is
returned (as a `PostgresConnectionError`); on success the handle is
returned unchanged. -/
theorem auth_init_failure_discards_client (e : PgError)
    (h : LocalClientHandle) :
    (authInitSession (Except.error e) h).1.discarded = true ∧
    (authInitSession (Except.error e) h).2 =
      Except.error (HttpConnError.PostgresConnectionError e) ∧
    (authInitSession (Except.ok ()) h).1 = h ∧
    (authInitSession (Except.ok ()) h).2 = Except.ok () :=
  ⟨rfl, rfl, rfl, rfl⟩

/-- C10: a pool-lookup error in `connect_to_local_proxy` is silently
treated as a pool miss (a new connection is dialed and the error is never
surfaced), whereas `connect_to_compute` propagates a pool-lookup error
immediately. -/
theorem local_proxy_pool_error_swallowed (C E : Type) (e : E) :
    connect_to_local_proxy_lookup C E (Except.error e) = PoolDecision.dial ∧
    connect_to_compute_lookup C E false (Except.error e) =
      PoolDecision.fail e :=
  ⟨rfl, rfl⟩

/-- C5: in `connect_http2`, a timed-out connect attempt is recorded as an
IO error of kind `TimedOut`; if no candidate address connects, the last
recorded error is returned; and with an empty candidate list (so no last
error exists) the result is an IO error of kind `InvalidInput` with
message "could not resolve any addresses". -/
theorem connect_http2_error_paths :
    (∀ attempt port, connect_http2 none port (Except.ok []) attempt =
      Except.error (LocalProxyConnError.Io
        ⟨IoErrorKind.InvalidInput, "could not resolve any addresses"⟩)) ∧
    (∀ attempt a m rest lastErr, attempt a = TcpAttempt.timedOut m →
      connectLoop attempt (a :: rest) lastErr =
        connectLoop attempt rest (some (LocalProxyConnError.Io
          ⟨IoErrorKind.TimedOut, m⟩))) ∧
    (∀ attempt addrs a e lastErr,
      (∀ x ∈ addrs, (attemptRecorded (attempt x)).isSome) →
      attemptRecorded (attempt a) = some e →
      connectLoop attempt (addrs ++ [a]) lastErr = Except.error e) := by
  refine ⟨fun attempt port => rfl, ?_, ?_⟩
  · intro attempt a m rest lastErr h
    simp [connectLoop, h]
  · intro attempt addrs a e lastErr hall ha
    induction addrs generalizing lastErr with
    | nil =>
        cases h : attempt a with
        | connected =>
            rw [h] at ha
            exact absurd ha (by simp [attemptRecorded])
        | nodelayErr e2 =>
            rw [h] at ha
            exact absurd ha (by simp [attemptRecorded])
        | connErr e2 =>
            rw [h] at ha
            simp only [attemptRecorded, Option.some.injEq] at ha
            simp [connectLoop, h, ha]
        | timedOut m =>
            rw [h] at ha
            simp only [attemptRecorded, Option.some.injEq] at ha
            simp [connectLoop, h, ha]
    | cons x xs ih =>
        have hx := hall x (List.mem_cons_self x xs)
        have hxs : ∀ y ∈ xs, (attemptRecorded (attempt y)).isSome :=
          fun y hy => hall y (List.mem_cons_of_mem x hy)
        cases h : attempt x with
        | connected =>
            rw [h] at hx
            exact absurd hx (by simp [attemptRecorded])
        | nodelayErr e2 =>
            rw [h] at hx
            exact absurd hx (by simp [attemptRecorded])
        | connErr e2 =>
            simp only [List.cons_append, connectLoop, h]
            exact ih _ hxs
        | timedOut m =>
            simp only [List.cons_append, connectLoop, h]
            exact ih _ hxs

/-- Witness for C5 at a network where every attempt times out: the loop
over two addresses returns the timeout error recorded for the last one. -/
theorem connect_http2_error_paths_witness :
    connectLoop (fun _ => TcpAttempt.timedOut "deadline has elapsed")
      ([⟨0, 1⟩] ++ [⟨2, 3⟩]) none =
      Except.error (LocalProxyConnError.Io
        ⟨IoErrorKind.TimedOut, "deadline has elapsed"⟩) :=
  connect_http2_error_paths.2.2
    (fun _ => TcpAttempt.timedOut "deadline has elapsed")
    [⟨0, 1⟩] ⟨2, 3⟩ _ none (fun _ _ => rfl) rfl

/-- C6: in `connect_http2`, when `host_addr` is `Some(addr)` the candidate
list is exactly the single `SocketAddr(addr, port)` and DNS resolution is
never consulted; only when `host_addr` is `None` is `(host, port)`
DNS-resolved. -/
theorem host_addr_skips_dns :
    (∀ a port dns,
      resolveAddrs (some a) port dns = (Except.ok [⟨a, port⟩], false)) ∧
    (∀ port dns, (resolveAddrs none port dns).2 = true) := by
  refine ⟨fun a port dns => rfl, fun port dns => ?_⟩
  cases dns <;> rfl

/-- `ComputeUserInfo` (spec section 3): user, endpoint id and startup
options. -/
structure ComputeUserInfo where
  user : String
  endpoint : String
  options : List (String × String)
deriving DecidableEq, Repr

/-- `ComputeCredentialKeys` from `crate::auth::backend`: no key material,
SCRAM auth keys, or JWT-derived session keys. -/
inductive ComputeCredentialKeys where
  | none
  | authKeys (k : Nat)
  | jwt
deriving DecidableEq, Repr

/-- `ComputeCredentials`: the authenticated user info plus key material. -/
structure ComputeCredentials where
  info : ComputeUserInfo
  keys : ComputeCredentialKeys
deriving DecidableEq, Repr

/-- Model of `crate::auth::AuthError` as `authenticate_with_password`
distinguishes it: the generic `password_failed(user)` produced locally,
and every other auth error (access control, rate limiting, secret fetch,
SCRAM infrastructure), abstracted by a tag. -/
inductive AuthError where
  | passwordFailed (user : String)
  | other (tag : Nat)
deriving DecidableEq, Repr

/-- `crate::sasl::Outcome` of the SCRAM exchange: success carrying the
derived keys, or a failure with a reason (abstracted by a tag). -/
inductive SaslOutcome where
  | success (keys : ComputeCredentialKeys)
  | failure (reason : Nat)
deriving DecidableEq, Repr

/-- Oracle giving the results of the awaited collaborator calls made by
`PoolingBackend::authenticate_with_password` (backend.rs lines 54-106), in
source order: `get_endpoint_access_control`, `access_control.check`,
`connection_attempt_rate_limit`, `get_role_secret` (whose payload's
`secret` field may be absent), and `validate_password_and_exchange`
(keyed by the fetched secret, abstracted as a number). -/
structure AuthOracle where
  get_endpoint_access_control : Except AuthError Unit
  access_check : Except AuthError Unit
  connection_attempt_rate_limit : Except AuthError Unit
  get_role_secret : Except AuthError (Option Nat)
  validate_password_and_exchange : Nat → Except AuthError SaslOutcome

/-- Collaborator calls of `authenticate_with_password`, recorded in the
order the source awaits them. -/
inductive AuthEvent where
  | getEndpointAccessControl
  | accessCheck
  | rateLimitCheck
  | getRoleSecret
  | scramExchange
deriving DecidableEq, Repr

/-- The source order of the collaborator calls in
`authenticate_with_password`: access control fetch, access check, rate
limit, role secret fetch, SCRAM exchange. -/
def authEventOrder : List AuthEvent :=
  [AuthEvent.getEndpointAccessControl, AuthEvent.accessCheck,
   AuthEvent.rateLimitCheck, AuthEvent.getRoleSecret,
   AuthEvent.scramExchange]

/-- `PoolingBackend::authenticate_with_password` (backend.rs lines
54-106), returning the result together with the trace of collaborator
calls it performed.  A missing role secret and a SCRAM `Failure` both map
to `AuthError::password_failed(user)`; a SCRAM `Success(key)` yields
`ComputeCredentials { info: user_info, keys: key }`.  (The request-context
bookkeeping on `ctx` is not modelled.) -/
def authenticate_with_password (o : AuthOracle) (u : ComputeUserInfo) :
    Except AuthError ComputeCredentials × List AuthEvent :=
  match o.get_endpoint_access_control with
  | Except.error e =>
      (Except.error e, [AuthEvent.getEndpointAccessControl])
  | Except.ok _ =>
    match o.access_check with
    | Except.error e =>
        (Except.error e,
          [AuthEvent.getEndpointAccessControl, AuthEvent.accessCheck])
    | Except.ok _ =>
      match o.connection_attempt_rate_limit with
      | Except.error e =>
          (Except.error e,
            [AuthEvent.getEndpointAccessControl, AuthEvent.accessCheck,
             AuthEvent.rateLimitCheck])
      | Except.ok _ =>
        match o.get_role_secret with
        | Except.error e =>
            (Except.error e,
              [AuthEvent.getEndpointAccessControl, AuthEvent.accessCheck,
               AuthEvent.rateLimitCheck, AuthEvent.getRoleSecret])
        | Except.ok Option.none =>
            (Except.error (AuthError.passwordFailed u.user),
              [AuthEvent.getEndpointAccessControl, AuthEvent.accessCheck,
               AuthEvent.rateLimitCheck, AuthEvent.getRoleSecret])
        | Except.ok (Option.some secret) =>
          match o.validate_password_and_exchange secret with
          | Except.error e => (Except.error e, authEventOrder)
          | Except.ok (SaslOutcome.success key) =>
              (Except.ok ⟨u, key⟩, authEventOrder)
          | Except.ok (SaslOutcome.failure _) =>
              (Except.error (AuthError.passwordFailed u.user),
                authEventOrder)

/-- C3: `authenticate_with_password` returns
`AuthError::password_failed(user)` when the fetched role secret is absent
and when the SCRAM exchange yields a `Failure`; when the exchange yields
`Success(keys)` it returns `Ok(ComputeCredentials)` whose `info` is the
input user info and whose `keys` field is the SCRAM keys. -/
theorem authenticate_with_password_outcomes (o : AuthOracle)
    (u : ComputeUserInfo)
    (h1 : o.get_endpoint_access_control = Except.ok ())
    (h2 : o.access_check = Except.ok ())
    (h3 : o.connection_attempt_rate_limit = Except.ok ()) :
    (o.get_role_secret = Except.ok Option.none →
      (authenticate_with_password o u).1 =
        Except.error (AuthError.passwordFailed u.user)) ∧
    (∀ s r, o.get_role_secret = Except.ok (Option.some s) →
      o.validate_password_and_exchange s =
        Except.ok (SaslOutcome.failure r) →
      (authenticate_with_password o u).1 =
        Except.error (AuthError.passwordFailed u.user)) ∧
    (∀ s k, o.get_role_secret = Except.ok (Option.some s) →
      o.validate_password_and_exchange s =
        Except.ok (SaslOutcome.success k) →
      (authenticate_with_password o u).1 = Except.ok ⟨u, k⟩) := by
  refine ⟨?_, ?_, ?_⟩
  · intro h4
    simp [authenticate_with_password, h1, h2, h3, h4]
  · intro s r h4 h5
    simp [authenticate_with_password, h1, h2, h3, h4, h5]
  · intro s k h4 h5
    simp [authenticate_with_password, h1, h2, h3, h4, h5]

/-- A concrete user for witnesses. -/
def sampleUser : ComputeUserInfo := ⟨"alice", "ep-one", []⟩

/-- A concrete oracle where every collaborator call succeeds and the SCRAM
exchange derives auth keys. -/
def sampleOracleOk : AuthOracle :=
  ⟨Except.ok (), Except.ok (), Except.ok (), Except.ok (Option.some 7),
    fun _ => Except.ok (SaslOutcome.success (ComputeCredentialKeys.authKeys 5))⟩

/-- Witness for C3: on the all-success oracle, authentication returns the
credentials with the input user info and the SCRAM keys. -/
theorem authenticate_with_password_outcomes_witness :
    (authenticate_with_password sampleOracleOk sampleUser).1 =
      Except.ok ⟨sampleUser, ComputeCredentialKeys.authKeys 5⟩ :=
  (authenticate_with_password_outcomes sampleOracleOk sampleUser
    rfl rfl rfl).2.2 7 (ComputeCredentialKeys.authKeys 5) rfl rfl

/-- C7: in `authenticate_with_password` the per-endpoint
connection-attempt rate limit runs after the access-control check and
before the role-secret fetch: the call trace is always a prefix of the
source order; `get_role_secret` is reached only when the rate limit
returned success; and a rate-limit failure surfaces that error with no
secret fetch and no SCRAM exchange. -/
theorem rate_limit_before_secret_fetch (o : AuthOracle)
    (u : ComputeUserInfo) :
    (∃ rest, (authenticate_with_password o u).2 ++ rest = authEventOrder) ∧
    (AuthEvent.getRoleSecret ∈ (authenticate_with_password o u).2 →
      o.connection_attempt_rate_limit = Except.ok ()) ∧
    (∀ e, o.get_endpoint_access_control = Except.ok () →
      o.access_check = Except.ok () →
      o.connection_attempt_rate_limit = Except.error e →
      (authenticate_with_password o u).1 = Except.error e ∧
      AuthEvent.getRoleSecret ∉ (authenticate_with_password o u).2 ∧
      AuthEvent.scramExchange ∉ (authenticate_with_password o u).2) := by
  obtain ⟨f1, f2, f3, f4, f5⟩ := o
  cases f1 with
  | error e1 =>
      exact ⟨⟨[AuthEvent.accessCheck, AuthEvent.rateLimitCheck,
        AuthEvent.getRoleSecret, AuthEvent.scramExchange], rfl⟩,
        by intro h; simp [authenticate_with_password] at h,
        by intro e h1 h2 h3; exact absurd h1 (by simp)⟩
  | ok u1 =>
  cases f2 with
  | error e2 =>
      exact ⟨⟨[AuthEvent.rateLimitCheck, AuthEvent.getRoleSecret,
        AuthEvent.scramExchange], rfl⟩,
        by intro h; simp [authenticate_with_password] at h,
        by intro e h1 h2 h3; exact absurd h2 (by simp)⟩
  | ok u2 =>
  cases f3 with
  | error e3 =>
      refine ⟨⟨[AuthEvent.getRoleSecret, AuthEvent.scramExchange], rfl⟩,
        by intro h; simp [authenticate_with_password] at h, ?_⟩
      intro e h1 h2 h3
      simp only [Except.error.injEq] at h3
      subst h3
      exact ⟨rfl, by simp [authenticate_with_password],
        by simp [authenticate_with_password]⟩
  | ok u3 =>
  have hrl : ∀ e,
      Except.ok (ε := AuthError) u3 ≠ Except.error e := fun e h => by
    exact Except.noConfusion h
  cases f4 with
  | error e4 =>
      exact ⟨⟨[AuthEvent.scramExchange], rfl⟩,
        fun _ => by cases u3; rfl,
        fun e h1 h2 h3 => absurd h3 (hrl e)⟩
  | ok osec =>
  cases osec with
  | none =>
      exact ⟨⟨[AuthEvent.scramExchange], rfl⟩,
        fun _ => by cases u3; rfl,
        fun e h1 h2 h3 => absurd h3 (hrl e)⟩
  | some s =>
  cases h5 : f5 s with
  | error e5 =>
      exact ⟨⟨[], by simp [authenticate_with_password, h5]⟩,
        fun _ => by cases u3; rfl,
        fun e h1 h2 h3 => absurd h3 (hrl e)⟩
  | ok out =>
  cases out with
  | success k =>
      exact ⟨⟨[], by simp [authenticate_with_password, h5]⟩,
        fun _ => by cases u3; rfl,
        fun e h1 h2 h3 => absurd h3 (hrl e)⟩
  | failure r =>
      exact ⟨⟨[], by simp [authenticate_with_password, h5]⟩,
        fun _ => by cases u3; rfl,
        fun e h1 h2 h3 => absurd h3 (hrl e)⟩

/-- A concrete oracle whose rate limit fails. -/
def sampleOracleRateLimited : AuthOracle :=
  ⟨Except.ok (), Except.ok (), Except.error (AuthError.other 3),
    Except.ok (Option.some 7),
    fun _ => Except.ok (SaslOutcome.success ComputeCredentialKeys.none)⟩

/-- Witness for C7: on the rate-limited oracle, the rate-limit error
surfaces and neither the role secret nor the SCRAM exchange is reached. -/
theorem rate_limit_before_secret_fetch_witness :
    (authenticate_with_password sampleOracleRateLimited sampleUser).1 =
      Except.error (AuthError.other 3) ∧
    AuthEvent.getRoleSecret ∉
      (authenticate_with_password sampleOracleRateLimited sampleUser).2 ∧
    AuthEvent.scramExchange ∉
      (authenticate_with_password sampleOracleRateLimited sampleUser).2 :=
  (rate_limit_before_secret_fetch sampleOracleRateLimited sampleUser).2.2
    (AuthError.other 3) rfl rfl rfl

/-- Program locations of one execution of `connect_to_local_postgres`
(backend.rs lines 271-302) relevant to the double-checked
initialization of the local extension. -/
inductive Loc where
  | checkFast   -- about to evaluate the outer `!self.local_pool.initialized(&conn_info)` (line 271)
  | acquire     -- flag was false; about to acquire the single-permit semaphore (line 273)
  | recheck     -- permit held; about to re-evaluate the flag (line 280)
  | install     -- permit held; about to call `compute_ctl.install_extension` (line 282)
  | grant       -- permit held; about to call `compute_ctl.grant_role` (line 290)
  | setInit     -- permit held; about to call `set_initialized` (line 300)
  | unlock      -- leaving the `if` block; the permit is about to drop
  | connecting  -- past the initialization block (line 304 onward)
  | failed      -- returned early with a compute_ctl error (the `?` on line 288 or 298)
deriving DecidableEq, Repr

/-- Shared state of the local pool for one `ConnInfo`, plus the program
counters of an unbounded family of concurrent `connect_to_local_postgres`
calls for it.  `initDone` is the pool's `initialized` flag, `permit` the
holder of the single-permit `initialize` semaphore, and `installs` /
`grants` count the `install_extension` / `grant_role` invocations made so
far. -/
structure InitState where
  initDone : Bool
  permit : Option Nat
  tasks : Nat → Loc
  installs : Nat
  grants : Nat

/-- Update the program counter of one task. -/
def setTask (tasks : Nat → Loc) (i : Nat) (l : Loc) : Nat → Loc :=
  fun j => if j = i then l else tasks j

/-- Interleaving semantics of backend.rs lines 271-302: any task may take
its next step.  `fallible` enables the failure outcomes of the two
compute_ctl calls (their `?` early returns, which drop the permit and
leave the flag unset). -/
inductive Step (fallible : Bool) : InitState → InitState → Prop where
  | fastHit (s : InitState) (i : Nat) :
      s.tasks i = Loc.checkFast → s.initDone = true →
      Step fallible s { s with tasks := setTask s.tasks i Loc.connecting }
  | fastMiss (s : InitState) (i : Nat) :
      s.tasks i = Loc.checkFast → s.initDone = false →
      Step fallible s { s with tasks := setTask s.tasks i Loc.acquire }
  | acquireOk (s : InitState) (i : Nat) :
      s.tasks i = Loc.acquire → s.permit = none →
      Step fallible s
        { s with permit := some i, tasks := setTask s.tasks i Loc.recheck }
  | recheckHit (s : InitState) (i : Nat) :
      s.tasks i = Loc.recheck → s.permit = some i → s.initDone = true →
      Step fallible s { s with tasks := setTask s.tasks i Loc.unlock }
  | recheckMiss (s : InitState) (i : Nat) :
      s.tasks i = Loc.recheck → s.permit = some i → s.initDone = false →
      Step fallible s { s with tasks := setTask s.tasks i Loc.install }
  | installOk (s : InitState) (i : Nat) :
      s.tasks i = Loc.install → s.permit = some i →
      Step fallible s
        { s with installs := s.installs + 1,
                 tasks := setTask s.tasks i Loc.grant }
  | installFail (s : InitState) (i : Nat) :
      fallible = true → s.tasks i = Loc.install → s.permit = some i →
      Step fallible s
        { s with installs := s.installs + 1, permit := none,
                 tasks := setTask s.tasks i Loc.failed }
  | grantOk (s : InitState) (i : Nat) :
      s.tasks i = Loc.grant → s.permit = some i →
      Step fallible s
        { s with grants := s.grants + 1,
                 tasks := setTask s.tasks i Loc.setInit }
  | grantFail (s : InitState) (i : Nat) :
      fallible = true → s.tasks i = Loc.grant → s.permit = some i →
      Step fallible s
        { s with grants := s.grants + 1, permit := none,
                 tasks := setTask s.tasks i Loc.failed }
  | setInitStep (s : InitState) (i : Nat) :
      s.tasks i = Loc.setInit → s.permit = some i →
      Step fallible s
        { s with initDone := true, tasks := setTask s.tasks i Loc.unlock }
  | unlockStep (s : InitState) (i : Nat) :
      s.tasks i = Loc.unlock → s.permit = some i →
      Step fallible s
        { s with permit := none, tasks := setTask s.tasks i Loc.connecting }

/-- Initial state for a `ConnInfo` the pool does not yet report
initialized: flag unset, semaphore free, every caller at the outer check,
no compute_ctl call made yet. -/
def initialLocalState : InitState :=
  ⟨false, none, fun _ => Loc.checkFast, 0, 0⟩

/-- Initial state for a `ConnInfo` the pool already reports initialized. -/
def initialLocalStateDone : InitState :=
  ⟨true, none, fun _ => Loc.checkFast, 0, 0⟩

/-- Locations at which a task holds the `initialize` permit (the scope of
the `_permit` binding, backend.rs lines 273-302). -/
def inCrit : Loc → Prop
  | Loc.recheck => True
  | Loc.install => True
  | Loc.grant => True
  | Loc.setInit => True
  | Loc.unlock => True
  | _ => False

instance (l : Loc) : Decidable (inCrit l) := by
  cases l <;> simp only [inCrit] <;> infer_instance

/-- The location of the permit holder, if any. -/
def holderLoc (s : InitState) : Option Loc :=
  Option.map s.tasks s.permit

/-- Counting part of the initialization invariant: before the flag is
set, the numbers of `install_extension` and `grant_role` invocations are
determined by how far the (unique) permit holder has progressed; after
the flag is set, both counts are at most one. -/
def countsOk : Bool → Option Loc → Nat → Nat → Prop
  | true, _, inst, gr => inst ≤ 1 ∧ gr ≤ 1
  | false, none, inst, gr => inst = 0 ∧ gr = 0
  | false, some Loc.recheck, inst, gr => inst = 0 ∧ gr = 0
  | false, some Loc.install, inst, gr => inst = 0 ∧ gr = 0
  | false, some Loc.grant, inst, gr => inst = 1 ∧ gr = 0
  | false, some Loc.setInit, inst, gr => inst = 1 ∧ gr = 1
  | false, some Loc.unlock, inst, gr => inst = 0 ∧ gr = 0
  | false, some _, _, _ => False

/-- Once the flag is set, the permit holder (if any) can only be at the
re-check or at the permit drop: no task is ever about to call
`install_extension`, `grant_role` or `set_initialized` again. -/
def holderOkWhenDone : Bool → Option Loc → Prop
  | true, some l => l = Loc.recheck ∨ l = Loc.unlock
  | _, _ => True

/-- Inductive invariant of the failure-free initialization system: a task
sits at a critical location exactly when it holds the permit, the call
counts follow the permit holder's progress, and after the flag is set the
holder can only be re-checking or unlocking. -/
def LocalInv (s : InitState) : Prop :=
  (∀ j, inCrit (s.tasks j) ↔ s.permit = some j) ∧
  countsOk s.initDone (holderLoc s) s.installs s.grants ∧
  holderOkWhenDone s.initDone (holderLoc s)

theorem setTask_self (tasks : Nat → Loc) (i : Nat) (l : Loc) :
    setTask tasks i l i = l := by
  simp [setTask]

theorem setTask_ne (tasks : Nat → Loc) (i : Nat) (l : Loc) (j : Nat)
    (h : j ≠ i) : setTask tasks i l j = tasks j := by
  simp [setTask, h]

theorem inCrit_not_checkFast : ¬ inCrit Loc.checkFast := fun h => h

theorem inCrit_not_acquire : ¬ inCrit Loc.acquire := fun h => h

theorem inCrit_not_connecting : ¬ inCrit Loc.connecting := fun h => h

theorem critIff_still (tasks : Nat → Loc) (p : Option Nat) (i : Nat)
    (l : Loc) (hold : ¬ inCrit (tasks i)) (hnew : ¬ inCrit l)
    (hAB : ∀ j, inCrit (tasks j) ↔ p = some j) :
    ∀ j, inCrit (setTask tasks i l j) ↔ p = some j := by
  intro j
  by_cases hji : j = i
  · subst hji
    rw [setTask_self]
    exact ⟨fun h => absurd h hnew, fun h => absurd ((hAB j).mpr h) hold⟩
  · rw [setTask_ne _ _ _ _ hji]
    exact hAB j

theorem critIff_enter (tasks : Nat → Loc) (p : Option Nat) (i : Nat)
    (l : Loc) (hold : ¬ inCrit (tasks i)) (hnew : inCrit l) (hp : p = none)
    (hAB : ∀ j, inCrit (tasks j) ↔ p = some j) :
    ∀ j, inCrit (setTask tasks i l j) ↔ (some i : Option Nat) = some j := by
  intro j
  by_cases hji : j = i
  · subst hji
    rw [setTask_self]
    exact ⟨fun _ => rfl, fun _ => hnew⟩
  · rw [setTask_ne _ _ _ _ hji]
    constructor
    · intro h
      have h2 := (hAB j).mp h
      rw [hp] at h2
      exact Option.noConfusion h2
    · intro h
      injection h with h2
      exact absurd h2.symm hji

theorem critIff_move (tasks : Nat → Loc) (i : Nat) (l : Loc)
    (hnew : inCrit l)
    (hAB : ∀ j, inCrit (tasks j) ↔ (some i : Option Nat) = some j) :
    ∀ j, inCrit (setTask tasks i l j) ↔ (some i : Option Nat) = some j := by
  intro j
  by_cases hji : j = i
  · subst hji
    rw [setTask_self]
    exact ⟨fun _ => rfl, fun _ => hnew⟩
  · rw [setTask_ne _ _ _ _ hji]
    exact hAB j

theorem critIff_exit (tasks : Nat → Loc) (i : Nat) (l : Loc)
    (hnew : ¬ inCrit l)
    (hAB : ∀ j, inCrit (tasks j) ↔ (some i : Option Nat) = some j) :
    ∀ j, inCrit (setTask tasks i l j) ↔ (none : Option Nat) = some j := by
  intro j
  by_cases hji : j = i
  · subst hji
    rw [setTask_self]
    exact ⟨fun h => absurd h hnew, fun h => Option.noConfusion h⟩
  · rw [setTask_ne _ _ _ _ hji]
    constructor
    · intro h
      have h2 := (hAB j).mp h
      injection h2 with h3
      exact absurd h3.symm hji
    · exact fun h => Option.noConfusion h

theorem map_setTask_other (tasks : Nat → Loc) (p : Option Nat) (i : Nat)
    (l : Loc) (hpne : ∀ j, p = some j → j ≠ i) :
    Option.map (setTask tasks i l) p = Option.map tasks p := by
  cases hp : p with
  | none => rfl
  | some j => simp [setTask_ne _ _ _ _ (hpne j hp)]

theorem holderLoc_eq_of_permit (s : InitState) (i : Nat)
    (hp : s.permit = some i) : holderLoc s = some (s.tasks i) := by
  unfold holderLoc
  rw [hp]
  rfl

theorem localInv_init : LocalInv initialLocalState := by
  refine ⟨fun j => ⟨fun h => absurd h inCrit_not_checkFast,
    fun h => Option.noConfusion h⟩, ⟨rfl, rfl⟩, trivial⟩

theorem localInv_step {s t : InitState} (hs : LocalInv s)
    (h : Step false s t) : LocalInv t := by
  obtain ⟨hAB, hC, hD⟩ := hs
  dsimp only [holderLoc] at hC hD
  cases h with
  | fastHit i hloc hinit =>
      have hpne : ∀ j, s.permit = some j → j ≠ i := fun j hp hji => by
        subst hji
        exact absurd ((hAB j).mpr hp) (by rw [hloc]; exact inCrit_not_checkFast)
      refine ⟨?_, ?_, ?_⟩
      · exact critIff_still s.tasks s.permit i Loc.connecting
          (by rw [hloc]; exact inCrit_not_checkFast) inCrit_not_connecting hAB
      · dsimp only [holderLoc]
        rw [map_setTask_other s.tasks s.permit i Loc.connecting hpne]
        exact hC
      · dsimp only [holderLoc]
        rw [map_setTask_other s.tasks s.permit i Loc.connecting hpne]
        exact hD
  | fastMiss i hloc hinit =>
      have hpne : ∀ j, s.permit = some j → j ≠ i := fun j hp hji => by
        subst hji
        exact absurd ((hAB j).mpr hp) (by rw [hloc]; exact inCrit_not_checkFast)
      refine ⟨?_, ?_, ?_⟩
      · exact critIff_still s.tasks s.permit i Loc.acquire
          (by rw [hloc]; exact inCrit_not_checkFast) inCrit_not_acquire hAB
      · dsimp only [holderLoc]
        rw [map_setTask_other s.tasks s.permit i Loc.acquire hpne]
        exact hC
      · dsimp only [holderLoc]
        rw [map_setTask_other s.tasks s.permit i Loc.acquire hpne]
        exact hD
  | acquireOk i hloc hperm =>
      simp only [hperm, Option.map_none'] at hC hD
      refine ⟨?_, ?_, ?_⟩
      · exact critIff_enter s.tasks s.permit i Loc.recheck
          (by rw [hloc]; exact inCrit_not_acquire) trivial hperm hAB
      · dsimp only [holderLoc]
        simp only [Option.map_some', setTask_self]
        cases hi : s.initDone with
        | true =>
            rw [hi] at hC
            exact hC
        | false =>
            rw [hi] at hC
            exact hC
      · dsimp only [holderLoc]
        simp only [Option.map_some', setTask_self]
        cases hi : s.initDone with
        | true => exact Or.inl rfl
        | false => trivial
  | recheckHit i hloc hperm hinit =>
      rw [hperm] at hAB
      simp only [hperm, Option.map_some', hloc] at hC hD
      refine ⟨?_, ?_, ?_⟩
      · dsimp only
        rw [hperm]
        exact critIff_move s.tasks i Loc.unlock trivial hAB
      · dsimp only [holderLoc]
        simp only [hperm, Option.map_some', setTask_self, hinit]
        rw [hinit] at hC
        exact hC
      · dsimp only [holderLoc]
        simp only [hperm, Option.map_some', setTask_self, hinit]
        exact Or.inr rfl
  | recheckMiss i hloc hperm hinit =>
      rw [hperm] at hAB
      simp only [hperm, Option.map_some', hloc] at hC hD
      refine ⟨?_, ?_, ?_⟩
      · dsimp only
        rw [hperm]
        exact critIff_move s.tasks i Loc.install trivial hAB
      · dsimp only [holderLoc]
        simp only [hperm, Option.map_some', setTask_self, hinit]
        rw [hinit] at hC
        exact hC
      · dsimp only [holderLoc]
        simp only [hperm, Option.map_some', setTask_self, hinit]
        trivial
  | installOk i hloc hperm =>
      rw [hperm] at hAB
      simp only [hperm, Option.map_some', hloc] at hC hD
      refine ⟨?_, ?_, ?_⟩
      · dsimp only
        rw [hperm]
        exact critIff_move s.tasks i Loc.grant trivial hAB
      · dsimp only [holderLoc]
        simp only [hperm, Option.map_some', setTask_self]
        cases hi : s.initDone with
        | true =>
            rw [hi] at hD
            rcases hD with h2 | h2 <;> exact absurd h2 (by decide)
        | false =>
            rw [hi] at hC
            exact ⟨by rw [hC.1], hC.2⟩
      · dsimp only [holderLoc]
        simp only [hperm, Option.map_some', setTask_self]
        cases hi : s.initDone with
        | true =>
            rw [hi] at hD
            rcases hD with h2 | h2 <;> exact absurd h2 (by decide)
        | false => trivial
  | installFail i hf hloc hperm => exact Bool.noConfusion hf
  | grantOk i hloc hperm =>
      rw [hperm] at hAB
      simp only [hperm, Option.map_some', hloc] at hC hD
      refine ⟨?_, ?_, ?_⟩
      · dsimp only
        rw [hperm]
        exact critIff_move s.tasks i Loc.setInit trivial hAB
      · dsimp only [holderLoc]
        simp only [hperm, Option.map_some', setTask_self]
        cases hi : s.initDone with
        | true =>
            rw [hi] at hD
            rcases hD with h2 | h2 <;> exact absurd h2 (by decide)
        | false =>
            rw [hi] at hC
            exact ⟨hC.1, by rw [hC.2]⟩
      · dsimp only [holderLoc]
        simp only [hperm, Option.map_some', setTask_self]
        cases hi : s.initDone with
        | true =>
            rw [hi] at hD
            rcases hD with h2 | h2 <;> exact absurd h2 (by decide)
        | false => trivial
  | grantFail i hf hloc hperm => exact Bool.noConfusion hf
  | setInitStep i hloc hperm =>
      rw [hperm] at hAB
      simp only [hperm, Option.map_some', hloc] at hC hD
      refine ⟨?_, ?_, ?_⟩
      · dsimp only
        rw [hperm]
        exact critIff_move s.tasks i Loc.unlock trivial hAB
      · dsimp only [holderLoc]
        simp only [hperm, Option.map_some', setTask_self]
        cases hi : s.initDone with
        | true =>
            rw [hi] at hD
            rcases hD with h2 | h2 <;> exact absurd h2 (by decide)
        | false =>
            rw [hi] at hC
            exact ⟨le_of_eq hC.1, le_of_eq hC.2⟩
      · dsimp only [holderLoc]
        simp only [hperm, Option.map_some', setTask_self]
        exact Or.inr rfl
  | unlockStep i hloc hperm =>
      rw [hperm] at hAB
      simp only [hperm, Option.map_some', hloc] at hC hD
      refine ⟨?_, ?_, ?_⟩
      · dsimp only
        exact critIff_exit s.tasks i Loc.connecting inCrit_not_connecting hAB
      · dsimp only [holderLoc]
        simp only [Option.map_none']
        cases hi : s.initDone with
        | true =>
            rw [hi] at hC
            exact hC
        | false =>
            rw [hi] at hC
            exact hC
      · dsimp only [holderLoc]
        simp only [Option.map_none']
        cases hi : s.initDone with
        | true => trivial
        | false => trivial

theorem localInv_reachable {s : InitState}
    (h : Relation.ReflTransGen (Step false) initialLocalState s) :
    LocalInv s := by
  induction h with
  | refl => exact localInv_init
  | tail _ hstep ih => exact localInv_step ih hstep

theorem countsOk_le {b : Bool} {x : Option Loc} {inst gr : Nat}
    (h : countsOk b x inst gr) : inst ≤ 1 ∧ gr ≤ 1 := by
  cases b with
  | true => exact h
  | false =>
      cases x with
      | none => obtain ⟨h1, h2⟩ := h; omega
      | some l =>
          cases l with
          | recheck => obtain ⟨h1, h2⟩ := h; omega
          | install => obtain ⟨h1, h2⟩ := h; omega
          | grant => obtain ⟨h1, h2⟩ := h; omega
          | setInit => obtain ⟨h1, h2⟩ := h; omega
          | unlock => obtain ⟨h1, h2⟩ := h; omega
          | checkFast => exact h.elim
          | acquire => exact h.elim
          | connecting => exact h.elim
          | failed => exact h.elim

/-- Invariant of runs that start with the flag already set: the flag stays
set, no task ever reaches the compute_ctl calls, and the call counts stay
zero. -/
def DoneInv (s : InitState) : Prop :=
  s.initDone = true ∧ s.installs = 0 ∧ s.grants = 0 ∧
  ∀ j, s.tasks j ≠ Loc.install ∧ s.tasks j ≠ Loc.grant ∧
    s.tasks j ≠ Loc.setInit

theorem tasks_update_safe (tasks : Nat → Loc) (i : Nat) (l : Loc)
    (hl1 : l ≠ Loc.install) (hl2 : l ≠ Loc.grant) (hl3 : l ≠ Loc.setInit)
    (hT : ∀ j, tasks j ≠ Loc.install ∧ tasks j ≠ Loc.grant ∧
      tasks j ≠ Loc.setInit) :
    ∀ j, setTask tasks i l j ≠ Loc.install ∧
      setTask tasks i l j ≠ Loc.grant ∧ setTask tasks i l j ≠ Loc.setInit := by
  intro j
  by_cases hji : j = i
  · subst hji
    rw [setTask_self]
    exact ⟨hl1, hl2, hl3⟩
  · rw [setTask_ne _ _ _ _ hji]
    exact hT j

theorem doneInv_step {b : Bool} {s t : InitState} (hs : DoneInv s)
    (h : Step b s t) : DoneInv t := by
  obtain ⟨hI, hInst, hGr, hT⟩ := hs
  cases h with
  | fastHit i hloc hinit =>
      exact ⟨hI, hInst, hGr, tasks_update_safe s.tasks i Loc.connecting
        (by decide) (by decide) (by decide) hT⟩
  | fastMiss i hloc hinit =>
      rw [hI] at hinit
      exact Bool.noConfusion hinit
  | acquireOk i hloc hperm =>
      exact ⟨hI, hInst, hGr, tasks_update_safe s.tasks i Loc.recheck
        (by decide) (by decide) (by decide) hT⟩
  | recheckHit i hloc hperm hinit =>
      exact ⟨hI, hInst, hGr, tasks_update_safe s.tasks i Loc.unlock
        (by decide) (by decide) (by decide) hT⟩
  | recheckMiss i hloc hperm hinit =>
      rw [hI] at hinit
      exact Bool.noConfusion hinit
  | installOk i hloc hperm => exact absurd hloc (hT i).1
  | installFail i hf hloc hperm => exact absurd hloc (hT i).1
  | grantOk i hloc hperm => exact absurd hloc (hT i).2.1
  | grantFail i hf hloc hperm => exact absurd hloc (hT i).2.1
  | setInitStep i hloc hperm => exact absurd hloc (hT i).2.2
  | unlockStep i hloc hperm =>
      exact ⟨hI, hInst, hGr, tasks_update_safe s.tasks i Loc.connecting
        (by decide) (by decide) (by decide) hT⟩

/-- C1 (amended): in the failure-free system (every `install_extension`
and `grant_role` call succeeds), from an uninitialized pool every
reachable interleaving of concurrent `connect_to_local_postgres` calls
performs each compute_ctl call at most once; and from a pool already
reporting the ConnInfo initialized, neither call is ever performed — in
both cases regardless of concurrent callers, thanks to the
double-checked `initialized` flag and the single-permit semaphore. -/
theorem local_init_at_most_once :
    (∀ s, Relation.ReflTransGen (Step false) initialLocalState s →
      s.installs ≤ 1 ∧ s.grants ≤ 1) ∧
    (∀ b s, Relation.ReflTransGen (Step b) initialLocalStateDone s →
      s.installs = 0 ∧ s.grants = 0) := by
  constructor
  · intro s h
    exact countsOk_le (localInv_reachable h).2.1
  · intro b s h
    have hd : DoneInv s := by
      induction h with
      | refl =>
          exact ⟨rfl, rfl, rfl, fun j =>
            ⟨fun hh => Loc.noConfusion hh, fun hh => Loc.noConfusion hh,
             fun hh => Loc.noConfusion hh⟩⟩
      | tail _ hstep ih => exact doneInv_step ih hstep
    exact ⟨hd.2.1, hd.2.2.1⟩

/-- Witness for the amended C1, instantiating both parts at the empty
run. -/
theorem local_init_at_most_once_witness :
    (initialLocalState.installs ≤ 1 ∧ initialLocalState.grants ≤ 1) ∧
    (initialLocalStateDone.installs = 0 ∧
      initialLocalStateDone.grants = 0) :=
  ⟨local_init_at_most_once.1 initialLocalState Relation.ReflTransGen.refl,
   local_init_at_most_once.2 false initialLocalStateDone
     Relation.ReflTransGen.refl⟩

/-- Counterexample schedule for C1 as stated: task 0 takes the slow path
and its `install_extension` call fails (the `?` on backend.rs line 288
returns the error without setting the flag), then task 1 takes the slow
path and calls `install_extension` again. -/
def cexS1 : InitState :=
  { initialLocalState with
      tasks := setTask initialLocalState.tasks 0 Loc.acquire }

def cexS2 : InitState :=
  { cexS1 with permit := some 0, tasks := setTask cexS1.tasks 0 Loc.recheck }

def cexS3 : InitState :=
  { cexS2 with tasks := setTask cexS2.tasks 0 Loc.install }

def cexS4 : InitState :=
  { cexS3 with installs := cexS3.installs + 1, permit := none,
               tasks := setTask cexS3.tasks 0 Loc.failed }

def cexS5 : InitState :=
  { cexS4 with tasks := setTask cexS4.tasks 1 Loc.acquire }

def cexS6 : InitState :=
  { cexS5 with permit := some 1, tasks := setTask cexS5.tasks 1 Loc.recheck }

def cexS7 : InitState :=
  { cexS6 with tasks := setTask cexS6.tasks 1 Loc.install }

def cexS8 : InitState :=
  { cexS7 with installs := cexS7.installs + 1,
               tasks := setTask cexS7.tasks 1 Loc.grant }

/-- C1 as stated is false on the code once compute_ctl failures are taken
into account: in the real (fallible) system a state is reachable from the
uninitialized pool in which `install_extension` has been invoked twice
while `initialized` is still false. -/
theorem local_init_double_install_possible :
    Relation.ReflTransGen (Step true) initialLocalState cexS8 ∧
    cexS8.initDone = false ∧ cexS8.installs = 2 ∧
    ¬ (cexS8.installs ≤ 1 ∧ cexS8.grants ≤ 1) := by
  refine ⟨?_, rfl, rfl, by decide⟩
  have h1 : Step true initialLocalState cexS1 := Step.fastMiss _ 0 rfl rfl
  have h2 : Step true cexS1 cexS2 := Step.acquireOk _ 0 rfl rfl
  have h3 : Step true cexS2 cexS3 := Step.recheckMiss _ 0 rfl rfl rfl
  have h4 : Step true cexS3 cexS4 := Step.installFail _ 0 rfl rfl rfl
  have h5 : Step true cexS4 cexS5 := Step.fastMiss _ 1 rfl rfl
  have h6 : Step true cexS5 cexS6 := Step.acquireOk _ 1 rfl rfl
  have h7 : Step true cexS6 cexS7 := Step.recheckMiss _ 1 rfl rfl rfl
  have h8 : Step true cexS7 cexS8 := Step.installOk _ 1 rfl rfl
  exact Relation.ReflTransGen.tail (Relation.ReflTransGen.tail
    (Relation.ReflTransGen.tail (Relation.ReflTransGen.tail
      (Relation.ReflTransGen.tail (Relation.ReflTransGen.tail
        (Relation.ReflTransGen.tail (Relation.ReflTransGen.single h1)
          h2) h3) h4) h5) h6) h7) h8

end NeonProxy
